import Mathlib

/-!
Verification development for the SalvaLab clinic scheduling dashboard.

The definitions below are a shallow embedding of the client-side scheduling
core found in src/app/dashboard/scans/page.tsx (the list view) and in the
agenda view component (second document of src/app/layout.tsx): the slot
calendar generator, the occupancy resolver, the appointment store with its
push-event reconciler, and the booking / lifecycle handlers.

Modelling conventions:
- An appointment instant (the source stores an ISO string in Scan.dateTime
  and always compares instants through new Date(x).getTime()) is modelled as
  an integer count of minutes since the Unix epoch.
- The viewer timezone offset (JS Date.getTimezoneOffset, minutes west of
  UTC) is a parameter named tz threaded through every local-time conversion.
- Fallible network exchanges are modelled as Except String inputs carrying
  either the decoded response or the surfaced error message.
-/

namespace SalvaLab

/-! ## Civil calendar arithmetic

Day counting follows the standard civil-from-days / days-from-civil
algorithms over the proleptic Gregorian calendar, with day 0 = 1970-01-01,
matching the arithmetic JS Date performs internally. Int.ediv / Int.emod
give floor semantics for the positive divisors used here.
-/

/-- A civil calendar date: year, month (1-12), day (1-31). -/
structure CivilDate where
  year : Int
  month : Int
  day : Int
  deriving DecidableEq, Repr

/-- Days since 1970-01-01 of a civil date (Gregorian, proleptic). -/
def daysFromCivil (dt : CivilDate) : Int :=
  let y := if dt.month ≤ 2 then dt.year - 1 else dt.year
  let era := Int.ediv y 400
  let yoe := y - era * 400
  let mp := if dt.month > 2 then dt.month - 3 else dt.month + 9
  let doy := Int.ediv (153 * mp + 2) 5 + dt.day - 1
  let doe := yoe * 365 + Int.ediv yoe 4 - Int.ediv yoe 100 + doy
  era * 146097 + doe - 719468

/-- Civil date of a day count since 1970-01-01 (inverse of daysFromCivil). -/
def civilFromDays (z0 : Int) : CivilDate :=
  let z := z0 + 719468
  let era := Int.ediv z 146097
  let doe := z - era * 146097
  let yoe := Int.ediv (doe - Int.ediv doe 1460 + Int.ediv doe 36524 - Int.ediv doe 146096) 365
  let y := yoe + era * 400
  let doy := doe - (365 * yoe + Int.ediv yoe 4 - Int.ediv yoe 100)
  let mp := Int.ediv (5 * doy + 2) 153
  let d := doy - Int.ediv (153 * mp + 2) 5 + 1
  let m := if mp < 10 then mp + 3 else mp - 9
  ⟨if m ≤ 2 then y + 1 else y, m, d⟩

/-- Weekday of a civil date, JS Date.getDay convention: 0 = Sunday.
1970-01-01 (day 0) was a Thursday (4). -/
def weekdayOf (dt : CivilDate) : Int :=
  Int.emod (daysFromCivil dt + 4) 7

/-- True in leap years of the Gregorian calendar. -/
def isLeapYear (y : Int) : Bool :=
  (Int.emod y 4 = 0 && Int.emod y 100 ≠ 0) || Int.emod y 400 = 0

/-- Number of days in a month (month assumed in 1-12). -/
def daysInMonth (y m : Int) : Int :=
  if m = 2 then (if isLeapYear y then 29 else 28)
  else if m = 4 || m = 6 || m = 9 || m = 11 then 30
  else 31

/-! ## A model of JS date-string parsing

The generator evaluates new Date(dateValue ++ "T00:00:00") and then
Date.prototype.getDay. For a string in the strict ISO form YYYY-MM-DD that
denotes a real calendar date, the result is the local-midnight Date of that
day, whose getDay is the civil weekday. For the ISO form with out-of-range
fields (month not in 1-12, day past the month length) and for strings not
in the 10-character ISO shape, the Date is Invalid and getDay returns NaN.
jsGetDay returns some weekday in the valid case and none for the NaN case.
-/

/-- Numeric value of a decimal digit character, none otherwise. -/
def digitVal (c : Char) : Option Nat :=
  if c.isDigit then some (c.toNat - 48) else none

/-- Value of two decimal digit characters. -/
def twoDigits (a b : Char) : Option Nat := do
  let x ← digitVal a
  let y ← digitVal b
  pure (x * 10 + y)

/-- Parse a strict YYYY-MM-DD string into a valid civil date.
Returns none for any string that is not 10 characters of that shape or
whose fields do not denote a real calendar date. -/
def parseDate (s : String) : Option CivilDate :=
  match s.data with
  | [y1, y2, y3, y4, '-', m1, m2, '-', d1, d2] => do
    let yh ← twoDigits y1 y2
    let yl ← twoDigits y3 y4
    let m ← twoDigits m1 m2
    let d ← twoDigits d1 d2
    let y : Int := (yh * 100 + yl : Nat)
    if 1 ≤ m ∧ m ≤ 12 ∧ 1 ≤ d ∧ (d : Int) ≤ daysInMonth y m then
      pure ⟨y, m, d⟩
    else
      none
  | _ => none

/-- Weekday that new Date(s ++ "T00:00:00").getDay() yields: some weekday
for a valid date string, none standing for NaN on an Invalid Date. -/
def jsGetDay (s : String) : Option Int :=
  (parseDate s).map weekdayOf

/-! ## Slot Calendar Generator

Faithful port of buildWorkingTimeOptions (scans/page.tsx lines 86-105);
buildWorkingSlots in the agenda view is textually the same computation.
-/

/-- A bookable slot: display label and 24-hour HH:MM value. -/
structure Slot where
  label : String
  value : String
  deriving DecidableEq, Repr

/-- Left-pad the decimal representation of n to two characters with zeros,
as Number.prototype.toString followed by padStart(2, "0") does. -/
def pad2 (n : Nat) : String :=
  if n < 10 then "0" ++ Nat.repr n else Nat.repr n

/-- The slot at a given minute-of-day offset, as built in the body of the
Array.from callback: hour24, minute string, 12-hour label, HH:MM value. -/
def mkSlot (totalMinutes : Nat) : Slot :=
  let hour24 := totalMinutes / 60
  let minute := if totalMinutes % 60 = 0 then "00" else "30"
  let hour12 := (hour24 + 11) % 12 + 1
  let period := if hour24 < 12 then "AM" else "PM"
  { label := Nat.repr hour12 ++ ":" ++ minute ++ " " ++ period
    value := pad2 hour24 ++ ":" ++ minute }

/-- The slot list for a business day: every 30 minutes from 08:00 through
13:30 on Saturday and through 19:30 otherwise, both endpoints included. -/
def buildSlotList (isSaturday : Bool) : List Slot :=
  let startMinutes := 8 * 60
  let endMinutes := if isSaturday then 13 * 60 + 30 else 19 * 60 + 30
  let totalSlots := (endMinutes - startMinutes) / 30 + 1
  (List.range totalSlots).map (fun index => mkSlot (startMinutes + index * 30))

/-- Slot list chosen from the parsed weekday. In the source, day === 0 and
the Saturday test day === 6 are both false when day is NaN (none here), so
an unparsable date falls through to the ordinary-weekday slot list. -/
def slotsForDay : Option Int → List Slot
  | none => buildSlotList false
  | some day => if day = 0 then [] else buildSlotList (day = 6)

/-- buildWorkingTimeOptions (scans/page.tsx 86-105): empty input gives no
slots; otherwise the weekday of new Date(dateValue ++ "T00:00:00") selects
the business-day slot list. -/
def buildWorkingTimeOptions (dateValue : String) : List Slot :=
  if dateValue = "" then [] else slotsForDay (jsGetDay dateValue)

/-! ## Data model

The Scan record of both views. The agenda view declares a subset of these
fields; using the one superset record is harmless since the agenda code
never touches createdBy. isScanned is an optional boolean in the source
and is only ever read through truthiness or Boolean(...), so a plain Bool
(false for a missing field) is a faithful model. status is optional with
three string values.
-/

/-- Appointment status, the three string values of the source union type. -/
inductive ScanStatus where
  | unconfirmed
  | confirmed
  | cancelled
  deriving DecidableEq, Repr

/-- String form of a status, as it appears in the JS comparisons. -/
def ScanStatus.toStr : ScanStatus → String
  | .unconfirmed => "unconfirmed"
  | .confirmed => "confirmed"
  | .cancelled => "cancelled"

/-- A staff member reference as embedded in a scan. -/
structure UserRef where
  id : Nat
  username : String
  deriving DecidableEq, Repr

/-- A clinic reference as embedded in a doctor. -/
structure ClinicRef where
  id : Nat
  name : String
  deriving DecidableEq, Repr

/-- A referring doctor reference as embedded in a scan. -/
structure DoctorRef where
  id : Nat
  name : String
  clinic : Option ClinicRef
  deriving DecidableEq, Repr

/-- An appointment. dateTime is the instant in minutes since the Unix
epoch (the source keeps an ISO string and always reduces it to the instant
with new Date(x).getTime() or to local parts). -/
structure Scan where
  id : Nat
  dateTime : Int
  detail : Option String
  createdBy : Option UserRef
  assignedTo : Option UserRef
  requestedByDoctor : Option DoctorRef
  isScanned : Bool
  status : Option ScanStatus
  deriving DecidableEq, Repr

/-! ## Local-time conversion

toLocalDateTimeParts (scans/page.tsx 58-67) and toLocalDate (agenda view)
are the same computation: shift the instant by the timezone offset and
read the date and HH:MM parts off the shifted ISO string. tz is the
getTimezoneOffset value in minutes (positive west of UTC); the shifted
instant is t - tz exactly as date.getTime() - offset * 60000 is in ms.
-/

/-- Zero-pad the decimal form of a non-negative year to four characters,
as Date.prototype.toISOString prints years 0-9999. -/
def pad4 (n : Nat) : String :=
  if n < 10 then "000" ++ Nat.repr n
  else if n < 100 then "00" ++ Nat.repr n
  else if n < 1000 then "0" ++ Nat.repr n
  else Nat.repr n

/-- YYYY-MM-DD form of a civil date (years 0-9999). -/
def formatCivilDate (dt : CivilDate) : String :=
  pad4 dt.year.toNat ++ "-" ++ pad2 dt.month.toNat ++ "-" ++ pad2 dt.day.toNat

/-- The (dateValue, timeValue) pair of an instant in the viewer timezone:
slices 0-10 and 11-16 of the shifted ISO string. -/
def toLocalDateTimeParts (tz : Int) (t : Int) : String × String :=
  let localMinutes := t - tz
  let dayNumber := Int.ediv localMinutes 1440
  let minuteOfDay := Int.emod localMinutes 1440
  ( formatCivilDate (civilFromDays dayNumber)
  , pad2 (Int.ediv minuteOfDay 60).toNat ++ ":" ++ pad2 (Int.emod minuteOfDay 60).toNat )

/-! ## The list-view filter predicate

matchesFilters (scans/page.tsx 460-493). Filter inputs are the raw select
values: empty string means the filter is off. Each identity comparison in
the source compares someRef?.id?.toString() with the filter string; a
missing reference yields undefined, which differs from every filter
string, so the scan fails that active filter - modelled by comparing
Option String values. auth?.id truthiness is modelled by Option presence
(persisted staff ids are positive).
-/

/-- The filter inputs captured by the reconciler closure of the list view. -/
structure ScanFilters where
  isScanner : Bool
  authId : Option Nat
  creatorFilter : String
  assigneeFilter : String
  doctorFilter : String
  clinicFilter : String
  dateFilter : String
  scannedFilter : String
  statusFilter : String
  deriving DecidableEq, Repr

/-- someRef?.id?.toString() for a user reference. -/
def refIdStr (r : Option UserRef) : Option String :=
  r.map (fun u => Nat.repr u.id)

/-- scan.requestedByDoctor?.id?.toString(). -/
def doctorIdStr (r : Option DoctorRef) : Option String :=
  r.map (fun d => Nat.repr d.id)

/-- scan.requestedByDoctor?.clinic?.id?.toString(). -/
def clinicIdStr (r : Option DoctorRef) : Option String :=
  (r.bind DoctorRef.clinic).map (fun c => Nat.repr c.id)

/-- matchesFilters: the conjunction of every active filter test, in source
order, each returning false on mismatch. -/
def matchesFilters (tz : Int) (f : ScanFilters) (scan : Scan) : Bool :=
  if f.isScanner ∧ f.authId.isSome ∧ scan.assignedTo.map UserRef.id ≠ f.authId then false
  else if f.creatorFilter ≠ "" ∧ refIdStr scan.createdBy ≠ some f.creatorFilter then false
  else if f.assigneeFilter ≠ "" ∧ refIdStr scan.assignedTo ≠ some f.assigneeFilter then false
  else if f.doctorFilter ≠ "" ∧ doctorIdStr scan.requestedByDoctor ≠ some f.doctorFilter then false
  else if f.clinicFilter ≠ "" ∧ clinicIdStr scan.requestedByDoctor ≠ some f.clinicFilter then false
  else if f.dateFilter ≠ "" ∧ (toLocalDateTimeParts tz scan.dateTime).1 ≠ f.dateFilter then false
  else if f.scannedFilter ≠ "" ∧ (if scan.isScanned then "true" else "false") ≠ f.scannedFilter then false
  else if f.statusFilter ≠ "" ∧ scan.status.map ScanStatus.toStr ≠ some f.statusFilter then false
  else true

/-! ## Store reconciliation

applyScanUpdate in the list view (scans/page.tsx 495-523) and in the
agenda view (layout.tsx second document, lines 375-394), together with
normalizeScan and the socket event handlers (lines 525-543 and 396-414).

The list view sorts with Array.prototype.sort under the comparator
new Date(b.dateTime).getTime() - new Date(a.dateTime).getTime(), a stable
sort descending by instant; sortByDateTimeDesc is a stable insertion sort
with the same key order (an element is placed before the first strictly
older element, so equal instants keep their relative order, as the stable
JS sort does).
-/

/-- Insert a scan into a list already descending by instant, before the
first element whose instant is not larger. -/
def insertDesc (s : Scan) : List Scan → List Scan
  | [] => [s]
  | x :: xs => if s.dateTime ≥ x.dateTime then s :: x :: xs else x :: insertDesc s xs

/-- Stable sort of a scan list, descending by instant. -/
def sortByDateTimeDesc : List Scan → List Scan
  | [] => []
  | x :: xs => insertDesc x (sortByDateTimeDesc xs)

/-- next[index] = scan for index = findIndex(item => item.id === scan.id):
replace the first entry with the incoming id, leaving the rest alone. -/
def replaceFirst (scan : Scan) : List Scan → List Scan
  | [] => []
  | x :: xs => if x.id = scan.id then scan :: xs else x :: replaceFirst scan xs

/-- applyScanUpdate of the list view: drop or remove a scan that fails the
active filters; otherwise insert (prepend, sort descending, trim to the
page limit) or replace in place and re-sort. -/
def applyScanUpdate (tz : Int) (f : ScanFilters) (limit : Nat) (scan : Scan)
    (prev : List Scan) : List Scan :=
  let present := prev.any (fun item => item.id == scan.id)
  if ¬ matchesFilters tz f scan then
    if ¬ present then prev
    else prev.filter (fun item => item.id != scan.id)
  else if ¬ present then
    (sortByDateTimeDesc (scan :: prev)).take limit
  else
    sortByDateTimeDesc (replaceFirst scan prev)

/-- applyScanUpdate of the agenda view: membership is decided by the local
calendar date of the scan against the currently selected date; a matching
scan is prepended (new) or replaced in place (known), with no re-sort and
no trim. -/
def applyScanUpdateAgenda (tz : Int) (selectedDate : String) (scan : Scan)
    (prev : List Scan) : List Scan :=
  let matchesDate := (toLocalDateTimeParts tz scan.dateTime).1 == selectedDate
  let present := prev.any (fun item => item.id == scan.id)
  if ¬ matchesDate then
    if ¬ present then prev
    else prev.filter (fun item => item.id != scan.id)
  else if ¬ present then
    scan :: prev
  else
    replaceFirst scan prev

/-- normalizeScan (both views): an unassigned action forces assignedTo to
null regardless of the payload; every other action passes the payload
through unchanged. -/
def normalizeScan (action : String) (scan : Scan) : Scan :=
  if action = "unassigned" then { scan with assignedTo := none } else scan

/-- An inbound push event: the generic scans.event envelope carrying
(action, scan), or one of the five named channels carrying a bare scan. -/
inductive PushEvent where
  | envelope (action : String) (scan : Scan)
  | created (scan : Scan)
  | updated (scan : Scan)
  | assigned (scan : Scan)
  | unassigned (scan : Scan)
  | scanned (scan : Scan)
  deriving DecidableEq, Repr

/-- Socket dispatch of the list view (scans/page.tsx 532-543): the
envelope goes through normalizeScan; the scans.unassigned channel spreads
assignedTo: null over the payload; the other channels apply the payload
directly. -/
def handleListEvent (tz : Int) (f : ScanFilters) (limit : Nat) :
    PushEvent → List Scan → List Scan
  | .envelope action scan => applyScanUpdate tz f limit (normalizeScan action scan)
  | .created scan | .updated scan | .assigned scan | .scanned scan =>
      applyScanUpdate tz f limit scan
  | .unassigned scan => applyScanUpdate tz f limit { scan with assignedTo := none }

/-- A whole sequence of push events applied to the list-view store. -/
def applyListEvents (tz : Int) (f : ScanFilters) (limit : Nat)
    (events : List PushEvent) (init : List Scan) : List Scan :=
  events.foldl (fun store e => handleListEvent tz f limit e store) init

/-! ## List-view page state and handlers

The React state of the scans page that the booking workflow and the
lifecycle controller read and write. Pagination metadata (page, pageCount,
total) is not modelled: no claim mentions it and no handler below branches
on it. Network round trips appear as Except String inputs: the write
result and the subsequent loadScans reload result are separate inputs
because the source awaits them one after the other inside one try block.
-/

/-- The creation / edit form fields (scans/page.tsx ScanFormState). -/
structure ScanFormState where
  dateValue : String
  timeValue : String
  detail : String
  createdById : String
  assignedToId : String
  requestedByDoctorId : String
  deriving DecidableEq, Repr

/-- The empty form (defaultFormState). -/
def defaultFormState : ScanFormState :=
  { dateValue := "", timeValue := "", detail := "", createdById := ""
    assignedToId := "", requestedByDoctorId := "" }

/-- The mutable state of the scans list page touched by the handlers. -/
structure ScansPageState where
  scans : List Scan
  formState : ScanFormState
  editingScan : Option Scan
  showForm : Bool
  showTimePicker : Bool
  occupiedSlots : List String
  occupiedError : Option String
  isSlotsLoading : Bool
  error : Option String
  isBusy : Bool
  deriving DecidableEq, Repr

/-- The client-side rejection message of a cancel on a scanned scan. -/
def cancelScannedMsg : String :=
  "No se puede cancelar un escaneo que ya está escaneado."

/-- onUpdateStatus of the list view (scans/page.tsx 430-451). The second
component records whether a network request was dispatched. patchResult
is the PATCH round trip, reload the loadScans call that follows it; a
reload failure is caught by the same catch after the modal was already
closed, leaving the scans list as it was. -/
def onUpdateStatusList (nextStatus : ScanStatus)
    (patchResult : Except String Unit) (reload : Except String (List Scan))
    (st : ScansPageState) : ScansPageState × Bool :=
  match st.editingScan with
  | none => (st, false)
  | some scan =>
    if nextStatus = .cancelled ∧ scan.isScanned then
      ({ st with error := some cancelScannedMsg }, false)
    else
      match patchResult with
      | .error msg => ({ st with error := some msg, isBusy := false }, true)
      | .ok _ =>
        match reload with
        | .ok scans' =>
            ({ st with editingScan := none, showForm := false, scans := scans'
                       error := none, isBusy := false }, true)
        | .error msg =>
            ({ st with editingScan := none, showForm := false
                       error := some msg, isBusy := false }, true)

/-- onEdit (scans/page.tsx 280-298): scanned or cancelled scans never open
the edit form; otherwise the form is pre-populated from the scan and the
modal opens. The source guards scan.dateTime for truthiness before
converting; dateTime is a required field, always present here. -/
def onEdit (tz : Int) (scan : Scan) (st : ScansPageState) : ScansPageState :=
  if scan.isScanned ∨ scan.status = some .cancelled then st
  else
    let parts := toLocalDateTimeParts tz scan.dateTime
    { st with
      editingScan := some scan
      formState :=
        { dateValue := parts.1
          timeValue := parts.2
          detail := scan.detail.getD ""
          createdById := (refIdStr scan.createdBy).getD ""
          assignedToId := (refIdStr scan.assignedTo).getD ""
          requestedByDoctorId := (doctorIdStr scan.requestedByDoctor).getD "" }
      showForm := true
      showTimePicker := false
      occupiedError := none
      isSlotsLoading := false }

/-! ## Occupancy Resolver

mapUtcSlotsToLocal and fetchOccupiedSlots (scans/page.tsx 311-352). The
server reports occupied instants as HH:MM tokens of the requested day in
UTC; each is converted to the viewer wall clock. Number(...) of a token
piece is modelled by jsNumber, none standing for NaN: a NaN anywhere makes
the Date invalid and the printed NaN:NaN string fails the length-5 filter
of the source, so such a token is dropped - filterMap with a none result
models exactly that. dateValue always comes from the date form input, so
its month is in range and the linear Date.UTC arithmetic agrees with
daysFromCivil.
-/

/-- Number(s) for the string pieces split off a date or time token; none
models NaN. -/
def jsNumber (s : String) : Option Int :=
  s.toInt?

/-- mapUtcSlotsToLocal: interpret each HH:MM token as UTC on the given
date and print it back in the viewer timezone; tokens that do not parse
are dropped by the length filter of the source. -/
def mapUtcSlotsToLocal (tz : Int) (slots : List String) (dateValue : String) :
    List String :=
  let dparts := dateValue.splitOn "-"
  match (dparts.get? 0).bind jsNumber, (dparts.get? 1).bind jsNumber,
        (dparts.get? 2).bind jsNumber with
  | some y, some m, some d =>
      slots.filterMap (fun slot =>
        let sp := slot.splitOn ":"
        match (sp.get? 0).bind jsNumber, (sp.get? 1).bind jsNumber with
        | some h, some mi =>
            let utc := daysFromCivil ⟨y, m, d⟩ * 1440 + h * 60 + mi
            let minuteOfDay := Int.emod (utc - tz) 1440
            some (pad2 (Int.ediv minuteOfDay 60).toNat ++ ":"
                    ++ pad2 (Int.emod minuteOfDay 60).toNat)
        | _, _ => none)
  | _, _, _ => slots.filterMap (fun _ => none)

/-- fetchOccupiedSlots (scans/page.tsx 324-352): with no chosen date the
occupied set and the error are cleared without a request; otherwise the
GET result either replaces the occupied set with the converted tokens or,
on failure, empties the occupied set while surfacing the error message.
The request also carries st.editingScan as the excluded appointment; that
only shapes the query string, not the state transition. -/
def fetchOccupiedSlots (tz : Int) (server : Except String (List String))
    (st : ScansPageState) : ScansPageState :=
  if st.formState.dateValue = "" then
    { st with occupiedSlots := [], occupiedError := none }
  else
    match server with
    | .ok payload =>
        { st with occupiedSlots := mapUtcSlotsToLocal tz payload st.formState.dateValue
                  occupiedError := none, isSlotsLoading := false }
    | .error msg =>
        { st with occupiedError := some msg, occupiedSlots := []
                  isSlotsLoading := false }

/-! ## Booking Workflow submission

onSubmit of the list view (scans/page.tsx 372-428). The three local
validation checks run in source order before the request body is built;
any failure throws into the catch, which only sets the error message.
-/

/-- toIsoFromDateTimeParts (scans/page.tsx 82-84). -/
def toIsoFromDateTimeParts (dateValue timeValue : String) : String :=
  dateValue ++ "T" ++ timeValue ++ ":00"

/-- The assignedTo field of the request body: omitted for a creation with
no selection, the explicit null sent when editing clears the assignee, or
a user id wrapper. -/
inductive AssignedField where
  | omitted
  | explicitNull
  | userId (n : Option Int)
  deriving DecidableEq, Repr

/-- The write request onSubmit dispatches: PATCH /scans/target when
editing, POST /scans otherwise, with the JSON body fields. Number(...) of
an id string is jsNumber (none standing for NaN). -/
structure SubmitRequest where
  target : Option Nat
  dateTime : String
  createdBy : Option Int
  requestedByDoctor : Option Int
  detail : Option String
  assignedTo : AssignedField
  deriving DecidableEq, Repr

/-- The first validation error message (missing date or time). -/
def dateTimeRequiredMsg : String := "La fecha y hora son obligatorias."

/-- The second validation error message (no creator detected). -/
def creatorRequiredMsg : String := "No se detectó el usuario creador."

/-- The third validation error message (no referring doctor chosen). -/
def doctorRequiredMsg : String := "Selecciona el doctor solicitante."

/-- The creator id after defaulting: the form value, or the acting user id
when the form value is empty, or empty when neither is known. authId is
the stored auth identity (auth?.id, ids positive). -/
def effectiveCreator (authId : Option Nat) (form : ScanFormState) : String :=
  if form.createdById ≠ "" then form.createdById
  else match authId with
       | some i => Nat.repr i
       | none => ""

/-- onSubmit: local validation, then the write round trip followed by the
loadScans reload, both awaited inside one try block. The second component
is the dispatched request, none when validation failed locally. On a write
or reload failure the catch sets the error; the form is reset and the
modal closed only after a successful write. -/
def onSubmit (authId : Option Nat) (writeResult : Except String Unit)
    (reload : Except String (List Scan)) (st : ScansPageState) :
    ScansPageState × Option SubmitRequest :=
  if st.formState.dateValue = "" ∨ st.formState.timeValue = "" then
    ({ st with error := some dateTimeRequiredMsg, isBusy := false }, none)
  else
    let createdById := effectiveCreator authId st.formState
    if createdById = "" then
      ({ st with error := some creatorRequiredMsg, isBusy := false }, none)
    else if st.formState.requestedByDoctorId = "" then
      ({ st with error := some doctorRequiredMsg, isBusy := false }, none)
    else
      let req : SubmitRequest :=
        { target := st.editingScan.map Scan.id
          dateTime := toIsoFromDateTimeParts st.formState.dateValue st.formState.timeValue
          createdBy := jsNumber createdById
          requestedByDoctor := jsNumber st.formState.requestedByDoctorId
          detail := if st.formState.detail ≠ "" then some st.formState.detail else none
          assignedTo :=
            if st.formState.assignedToId ≠ "" then
              .userId (jsNumber st.formState.assignedToId)
            else if st.editingScan.isSome then .explicitNull
            else .omitted }
      match writeResult with
      | .error msg => ({ st with error := some msg, isBusy := false }, some req)
      | .ok _ =>
        match reload with
        | .ok scans' =>
            ({ st with formState := defaultFormState, editingScan := none
                       showForm := false, scans := scans', error := none
                       isBusy := false }, some req)
        | .error msg =>
            ({ st with formState := defaultFormState, editingScan := none
                       showForm := false, error := some msg
                       isBusy := false }, some req)

/-! ## Agenda view state and handlers -/

/-- The mutable state of the agenda view touched by the lifecycle
handlers. -/
structure AgendaState where
  scans : List Scan
  selectedScan : Option Scan
  showManage : Bool
  error : Option String
  isLoading : Bool
  deriving DecidableEq, Repr

/-- onUpdateStatus of the agenda view (layout.tsx second document, lines
299-319). Identical guard to the list view; on success the manage modal
closes and loadScans reloads the day, and the agenda loadScans catches its
own failure by emptying the list. -/
def onUpdateStatusAgenda (nextStatus : ScanStatus)
    (patchResult : Except String Unit) (reload : Except String (List Scan))
    (st : AgendaState) : AgendaState × Bool :=
  match st.selectedScan with
  | none => (st, false)
  | some scan =>
    if nextStatus = .cancelled ∧ scan.isScanned then
      ({ st with error := some cancelScannedMsg }, false)
    else
      match patchResult with
      | .error msg => ({ st with error := some msg, isLoading := false }, true)
      | .ok _ =>
        match reload with
        | .ok scans' =>
            ({ st with selectedScan := none, showManage := false
                       scans := scans', error := none, isLoading := false }, true)
        | .error msg =>
            ({ st with selectedScan := none, showManage := false
                       scans := [], error := some msg, isLoading := false }, true)

/-! ## Agenda day grid

slotsByTime (layout.tsx second document, lines 203-213): a Map from local
HH:MM start time to the scans of the selected day, built by a forEach that
skips cancelled scans and scans of other local dates. A JS Map iterates in
key insertion order and push appends, so an association list with new keys
appended at the tail and values appended to their group is the same
structure.
-/

/-- map.get(k).push(s) with the map.has(k) check: append s to the group of
key k, creating the group at the tail when the key is new. -/
def addToSlotMap (m : List (String × List Scan)) (k : String) (s : Scan) :
    List (String × List Scan) :=
  match m with
  | [] => [(k, [s])]
  | (k', g) :: rest =>
      if k' = k then (k', g ++ [s]) :: rest
      else (k', g) :: addToSlotMap rest k s

/-- The forEach body of slotsByTime: skip cancelled scans and scans whose
local date is not the selected one; group the rest under their local HH:MM
start time. -/
def slotFoldStep (tz : Int) (selectedDate : String)
    (m : List (String × List Scan)) (scan : Scan) : List (String × List Scan) :=
  if scan.status = some .cancelled then m
  else
    let parts := toLocalDateTimeParts tz scan.dateTime
    if parts.1 ≠ selectedDate then m
    else addToSlotMap m parts.2 scan

/-- slotsByTime: group the non-cancelled scans of the selected local date
under their local HH:MM start times, in store order. -/
def slotsByTime (tz : Int) (selectedDate : String) (scans : List Scan) :
    List (String × List Scan) :=
  scans.foldl (slotFoldStep tz selectedDate) []

/-! ## Concrete fixtures

Closed sample values used to instantiate the theorems below on concrete
inputs.
-/

/-- The filter set with every filter off and an administrator viewer:
every scan matches. -/
def emptyFilters : ScanFilters :=
  { isScanner := false, authId := some 1, creatorFilter := "", assigneeFilter := ""
    doctorFilter := "", clinicFilter := "", dateFilter := "", scannedFilter := ""
    statusFilter := "" }

/-- A minimal unconfirmed scan with a chosen id and instant. -/
def sampleScan (i : Nat) (t : Int) : Scan :=
  { id := i, dateTime := t, detail := none, createdBy := none, assignedTo := none
    requestedByDoctor := none, isScanned := false, status := some .unconfirmed }

/-- A confirmed scan that has already been scanned. Its instant is
2025-10-13 09:00 UTC in minutes since the epoch. -/
def sampleScannedScan : Scan :=
  { id := 11, dateTime := 29339100, detail := none, createdBy := none
    assignedTo := none, requestedByDoctor := none, isScanned := true
    status := some .confirmed }

/-- A scan currently assigned to user 7. -/
def sampleAssignedScan : Scan :=
  { id := 3, dateTime := 29339130, detail := some "molde", createdBy := none
    assignedTo := some ⟨7, "ana"⟩, requestedByDoctor := none, isScanned := false
    status := some .confirmed }

/-- The same scan with the assignee removed, written out literally. -/
def sampleUnassignedScan : Scan :=
  { id := 3, dateTime := 29339130, detail := some "molde", createdBy := none
    assignedTo := none, requestedByDoctor := none, isScanned := false
    status := some .confirmed }

/-- A scan on 1970-01-01 at 08:00 UTC, confirmed. -/
def sampleSlotScan : Scan :=
  { id := 21, dateTime := 480, detail := none, createdBy := none
    assignedTo := none, requestedByDoctor := none, isScanned := false
    status := some .confirmed }

/-- A list page with the scanned sample open in the edit modal. -/
def samplePageState : ScansPageState :=
  { scans := [sampleScannedScan], formState := defaultFormState
    editingScan := some sampleScannedScan, showForm := true
    showTimePicker := false, occupiedSlots := [], occupiedError := none
    isSlotsLoading := false, error := none, isBusy := false }

/-- A list page with a chosen date in the form and nothing being edited. -/
def sampleDatedPageState : ScansPageState :=
  { scans := [], formState := { defaultFormState with dateValue := "2025-10-13" }
    editingScan := none, showForm := true, showTimePicker := false
    occupiedSlots := [], occupiedError := none, isSlotsLoading := true
    error := none, isBusy := false }

/-- A list page with a form missing only the referring doctor. -/
def sampleNoDoctorPageState : ScansPageState :=
  { scans := [], formState :=
      { dateValue := "2025-10-13", timeValue := "09:00", detail := ""
        createdById := "4", assignedToId := "", requestedByDoctorId := "" }
    editingScan := none, showForm := true, showTimePicker := false
    occupiedSlots := [], occupiedError := none, isSlotsLoading := false
    error := none, isBusy := false }

/-- An agenda view with the scanned sample open in the manage modal. -/
def sampleAgendaState : AgendaState :=
  { scans := [sampleScannedScan], selectedScan := some sampleScannedScan
    showManage := true, error := none, isLoading := false }

/-! ## Analysis helpers

Spec-side functions used only to state properties of the generated slot
values; they are not part of the embedded program.
-/

/-- Minutes since midnight denoted by a well-formed HH:MM value. -/
def timeValueMinutes (v : String) : Nat :=
  match v.data with
  | [h1, h2, _, m1, m2] =>
      ((digitVal h1).getD 0 * 10 + (digitVal h2).getD 0) * 60
        + (digitVal m1).getD 0 * 10 + (digitVal m2).getD 0
  | _ => 0

/-- The list-view store invariant: descending by instant and within the
page-size limit. -/
def ListStoreInv (limit : Nat) (l : List Scan) : Prop :=
  List.Pairwise (fun a b => b.dateTime ≤ a.dateTime) l ∧ l.length ≤ limit

/-! # Theorems -/

/-- C1: cancelling an appointment with isScanned = true is rejected in
both views, for every status value of the appointment and every possible
server behaviour: the handler surfaces the rejection message, dispatches
no network request (second component false) and leaves every other piece
of state - in particular the store and the selected appointment - exactly
as it was. -/
theorem cancel_rejected_when_scanned
    (scan : Scan) (hscanned : scan.isScanned = true)
    (patchResult : Except String Unit) (reload : Except String (List Scan))
    (lst : ScansPageState) (hl : lst.editingScan = some scan)
    (ast : AgendaState) (ha : ast.selectedScan = some scan) :
    onUpdateStatusList .cancelled patchResult reload lst
      = ({ lst with error := some cancelScannedMsg }, false) ∧
    onUpdateStatusAgenda .cancelled patchResult reload ast
      = ({ ast with error := some cancelScannedMsg }, false) := by
  constructor
  · simp [onUpdateStatusList, hl, hscanned]
  · simp [onUpdateStatusAgenda, ha, hscanned]

/-- C1 instantiated: the scanned sample open in either modal. -/
theorem cancel_rejected_when_scanned_witness :
    onUpdateStatusList .cancelled (.ok ()) (.ok []) samplePageState
      = ({ samplePageState with error := some cancelScannedMsg }, false) ∧
    onUpdateStatusAgenda .cancelled (.ok ()) (.ok []) sampleAgendaState
      = ({ sampleAgendaState with error := some cancelScannedMsg }, false) :=
  cancel_rejected_when_scanned sampleScannedScan rfl (.ok ()) (.ok [])
    samplePageState rfl sampleAgendaState rfl

/-- C5: when the occupied-slots fetch fails with any date chosen, the
resolver empties the occupied set (fail-open) and at the same time records
the recoverable error message, so the free-looking day is never silent:
the whole resulting state is the old one with exactly those two fields and
the loading flag changed. -/
theorem occupied_fetch_failure_fail_open
    (tz : Int) (msg : String) (st : ScansPageState)
    (hdate : st.formState.dateValue ≠ "") :
    fetchOccupiedSlots tz (.error msg) st
      = { st with occupiedSlots := [], occupiedError := some msg
                  isSlotsLoading := false } := by
  simp [fetchOccupiedSlots, hdate]

/-- C5 instantiated at a concrete dated page and failure message. -/
theorem occupied_fetch_failure_fail_open_witness :
    fetchOccupiedSlots 0 (.error "Error 500: Internal Server Error") sampleDatedPageState
      = { sampleDatedPageState with
            occupiedSlots := []
            occupiedError := some "Error 500: Internal Server Error"
            isSlotsLoading := false } :=
  occupied_fetch_failure_fail_open 0 "Error 500: Internal Server Error"
    sampleDatedPageState (by decide)

/-- C9: the edit action on a scan that is already scanned or already
cancelled returns with the page state untouched: the edit modal never
opens and no form field is populated. -/
theorem edit_rejected_scanned_or_cancelled
    (tz : Int) (scan : Scan) (st : ScansPageState)
    (h : scan.isScanned = true ∨ scan.status = some .cancelled) :
    onEdit tz scan st = st := by
  unfold onEdit
  rcases h with h | h <;> simp [h]

/-- C9 instantiated at the scanned sample. -/
theorem edit_rejected_scanned_or_cancelled_witness :
    onEdit 0 sampleScannedScan samplePageState = samplePageState :=
  edit_rejected_scanned_or_cancelled 0 sampleScannedScan samplePageState (Or.inl rfl)

/-- C6: a submission missing the date, the time, the creator identity
after defaulting to the acting user, or the referring doctor fails with
the corresponding validation message before any network call: the request
component is none and the state is unchanged except for the surfaced
error. -/
theorem submit_validation_fails_locally
    (authId : Option Nat) (writeResult : Except String Unit)
    (reload : Except String (List Scan)) (st : ScansPageState)
    (h : st.formState.dateValue = "" ∨ st.formState.timeValue = "" ∨
         effectiveCreator authId st.formState = "" ∨
         st.formState.requestedByDoctorId = "") :
    onSubmit authId writeResult reload st =
      ({ st with
          error := some
            (if st.formState.dateValue = "" ∨ st.formState.timeValue = "" then
               dateTimeRequiredMsg
             else if effectiveCreator authId st.formState = "" then
               creatorRequiredMsg
             else doctorRequiredMsg)
          isBusy := false }, none) := by
  unfold onSubmit
  by_cases h1 : st.formState.dateValue = "" ∨ st.formState.timeValue = ""
  · simp [h1]
  · by_cases h2 : effectiveCreator authId st.formState = ""
    · simp [h1, h2]
    · have h3 : st.formState.requestedByDoctorId = "" := by tauto
      simp [h1, h2, h3]

/-- C6 instantiated: a form missing only the doctor selection. -/
theorem submit_validation_fails_locally_witness :
    onSubmit none (.ok ()) (.ok []) sampleNoDoctorPageState =
      ({ sampleNoDoctorPageState with
          error := some doctorRequiredMsg, isBusy := false }, none) := by
  have h := submit_validation_fails_locally none (.ok ()) (.ok [])
    sampleNoDoctorPageState (Or.inr (Or.inr (Or.inr rfl)))
  simpa using h

/-- C2: for every well-formed calendar date string, the generator returns
no slots on Sunday, the twelve half-hour starts 08:00 through 13:30 on
Saturday and the twenty-four starts 08:00 through 19:30 otherwise; on
every open day the values begin at 08:00, are strictly ascending as times
and have minute component 00 or 30. -/
theorem slot_generator_calendar
    (s : String) (d : CivilDate) (h : parseDate s = some d) :
    (weekdayOf d = 0 → buildWorkingTimeOptions s = []) ∧
    (weekdayOf d = 6 → (buildWorkingTimeOptions s).map Slot.value =
      ["08:00", "08:30", "09:00", "09:30", "10:00", "10:30",
       "11:00", "11:30", "12:00", "12:30", "13:00", "13:30"]) ∧
    (weekdayOf d ≠ 0 → weekdayOf d ≠ 6 →
      (buildWorkingTimeOptions s).map Slot.value =
      ["08:00", "08:30", "09:00", "09:30", "10:00", "10:30",
       "11:00", "11:30", "12:00", "12:30", "13:00", "13:30",
       "14:00", "14:30", "15:00", "15:30", "16:00", "16:30",
       "17:00", "17:30", "18:00", "18:30", "19:00", "19:30"]) ∧
    (weekdayOf d ≠ 0 →
      ((buildWorkingTimeOptions s).map Slot.value).head? = some "08:00" ∧
      List.Pairwise (fun a b => timeValueMinutes a < timeValueMinutes b)
        ((buildWorkingTimeOptions s).map Slot.value) ∧
      ∀ v ∈ (buildWorkingTimeOptions s).map Slot.value,
        v.drop 3 = "00" ∨ v.drop 3 = "30") := by
  have hne : s ≠ "" := by
    intro he
    rw [he] at h
    simp [parseDate] at h
  have hb : buildWorkingTimeOptions s = slotsForDay (some (weekdayOf d)) := by
    simp [buildWorkingTimeOptions, hne, jsGetDay, h]
  rw [hb]
  refine ⟨?_, ?_, ?_, ?_⟩
  · intro h0
    simp [slotsForDay, h0]
  · intro h6
    rw [h6]
    decide
  · intro h0 h6
    simp only [slotsForDay, if_neg h0, decide_eq_false h6]
    decide
  · intro h0
    by_cases h6 : weekdayOf d = 6
    · rw [h6]
      refine ⟨by decide, by decide, by decide⟩
    · simp only [slotsForDay, if_neg h0, decide_eq_false h6]
      refine ⟨by decide, by decide, by decide⟩

/-- C2 instantiated at the Saturday 2025-10-11. -/
theorem slot_generator_calendar_witness :
    (buildWorkingTimeOptions "2025-10-11").map Slot.value =
      ["08:00", "08:30", "09:00", "09:30", "10:00", "10:30",
       "11:00", "11:30", "12:00", "12:30", "13:00", "13:30"] :=
  (slot_generator_calendar "2025-10-11" ⟨2025, 10, 11⟩ (by decide)).2.1 (by decide)

/-- C8 as stated is false on the code: the syntactically well-formed but
invalid calendar date 2024-02-30 produces an Invalid Date whose NaN
weekday is neither Sunday nor Saturday, so the generator falls through to
the full ordinary-weekday slot list instead of returning the empty
sequence. -/
theorem malformed_date_empty_counterexample :
    buildWorkingTimeOptions "2024-02-30" ≠ [] := by decide

/-- C8 amended: only the empty date input short-circuits to the empty
sequence; a non-empty ten-character input that does not denote a valid
calendar date is treated like an ordinary weekday and yields the full
twenty-four slot sequence. -/
theorem malformed_date_fallthrough (s : String) :
    buildWorkingTimeOptions "" = [] ∧
    (s ≠ "" → parseDate s = none →
      buildWorkingTimeOptions s = buildSlotList false ∧
      (buildWorkingTimeOptions s).length = 24) := by
  refine ⟨rfl, ?_⟩
  intro hne h
  have hb : buildWorkingTimeOptions s = buildSlotList false := by
    simp [buildWorkingTimeOptions, hne, jsGetDay, h, slotsForDay]
  exact ⟨hb, by rw [hb]; decide⟩

/-- C8 amended, instantiated at the invalid date 2024-02-30. -/
theorem malformed_date_fallthrough_witness :
    buildWorkingTimeOptions "2024-02-30" = buildSlotList false ∧
    (buildWorkingTimeOptions "2024-02-30").length = 24 :=
  (malformed_date_fallthrough "2024-02-30").2 (by decide) (by decide)

/-! ## Lemmas about the list-view reconciler -/

/-- Inserting into the descending store permutes a cons. -/
theorem insertDesc_perm (s : Scan) (l : List Scan) :
    List.Perm (insertDesc s l) (s :: l) := by
  induction l with
  | nil => exact List.Perm.refl _
  | cons x xs ih =>
    unfold insertDesc
    by_cases hc : s.dateTime ≥ x.dateTime
    · rw [if_pos hc]
    · rw [if_neg hc]
      exact (ih.cons x).trans (List.Perm.swap s x xs)

/-- The stable descending sort is a permutation. -/
theorem sortByDateTimeDesc_perm (l : List Scan) :
    List.Perm (sortByDateTimeDesc l) l := by
  induction l with
  | nil => exact List.Perm.refl _
  | cons x xs ih => exact (insertDesc_perm x _).trans (ih.cons x)

/-- Inserting preserves the descending order. -/
theorem pairwise_insertDesc {s : Scan} {l : List Scan}
    (h : List.Pairwise (fun a b => b.dateTime ≤ a.dateTime) l) :
    List.Pairwise (fun a b => b.dateTime ≤ a.dateTime) (insertDesc s l) := by
  induction l with
  | nil => simp [insertDesc]
  | cons x xs ih =>
    obtain ⟨hx, hxs⟩ := List.pairwise_cons.1 h
    unfold insertDesc
    by_cases hc : s.dateTime ≥ x.dateTime
    · rw [if_pos hc]
      refine List.pairwise_cons.2 ⟨?_, h⟩
      intro b hb
      rcases List.mem_cons.1 hb with rfl | hb
      · exact hc
      · exact le_trans (hx b hb) hc
    · rw [if_neg hc]
      refine List.pairwise_cons.2 ⟨?_, ih hxs⟩
      intro b hb
      rcases List.mem_cons.1 ((insertDesc_perm s xs).mem_iff.1 hb) with rfl | hb
      · exact le_of_lt (lt_of_not_ge hc)
      · exact hx b hb

/-- The sorted store is descending by instant. -/
theorem pairwise_sortByDateTimeDesc (l : List Scan) :
    List.Pairwise (fun a b => b.dateTime ≤ a.dateTime) (sortByDateTimeDesc l) := by
  induction l with
  | nil => simp [sortByDateTimeDesc]
  | cons x xs ih => exact pairwise_insertDesc ih

/-- Replacing in place does not change the length. -/
theorem length_replaceFirst (scan : Scan) (l : List Scan) :
    (replaceFirst scan l).length = l.length := by
  induction l with
  | nil => rfl
  | cons x xs ih =>
    unfold replaceFirst
    by_cases hc : x.id = scan.id
    · rw [if_pos hc]
      simp
    · rw [if_neg hc]
      simpa using ih

/-- A member of the replaced store is the incoming scan or an untouched
entry with a different id, when ids are unique. -/
theorem mem_replaceFirst {x scan : Scan} {l : List Scan}
    (hnodup : (l.map Scan.id).Nodup) (hx : x ∈ replaceFirst scan l) :
    x = scan ∨ (x ∈ l ∧ x.id ≠ scan.id) := by
  induction l with
  | nil => simp [replaceFirst] at hx
  | cons y ys ih =>
    rw [List.map_cons, List.nodup_cons] at hnodup
    obtain ⟨hy, hys⟩ := hnodup
    unfold replaceFirst at hx
    by_cases hid : y.id = scan.id
    · rw [if_pos hid] at hx
      rcases List.mem_cons.1 hx with rfl | hx
      · exact Or.inl rfl
      · refine Or.inr ⟨List.mem_cons_of_mem _ hx, fun hxe => hy ?_⟩
        have hmm : x.id ∈ ys.map Scan.id := List.mem_map_of_mem Scan.id hx
        rwa [hxe, ← hid] at hmm
    · rw [if_neg hid] at hx
      rcases List.mem_cons.1 hx with rfl | hx
      · exact Or.inr ⟨List.mem_cons_self _ _, hid⟩
      · rcases ih hys hx with h | ⟨hmem, hne⟩
        · exact Or.inl h
        · exact Or.inr ⟨List.mem_cons_of_mem _ hmem, hne⟩

/-- Any entry of the reconciled store carrying the incoming id is the
incoming scan itself, when the previous store has unique ids. -/
theorem applyScanUpdate_mem_id {tz : Int} {f : ScanFilters} {limit : Nat}
    {scan x : Scan} {prev : List Scan}
    (hnodup : (prev.map Scan.id).Nodup)
    (hx : x ∈ applyScanUpdate tz f limit scan prev) (hid : x.id = scan.id) :
    x = scan := by
  by_cases hm : matchesFilters tz f scan = true
  · by_cases hp : prev.any (fun item => item.id == scan.id) = true
    · simp only [applyScanUpdate, hm, hp] at hx
      simp at hx
      rcases mem_replaceFirst hnodup ((sortByDateTimeDesc_perm _).mem_iff.1 hx)
        with h | ⟨_, hne⟩
      · exact h
      · exact absurd hid hne
    · simp only [applyScanUpdate, hm, hp] at hx
      simp at hx
      have hx2 : x ∈ scan :: prev :=
        (sortByDateTimeDesc_perm _).mem_iff.1 (List.take_subset _ _ hx)
      rcases List.mem_cons.1 hx2 with rfl | hx3
      · rfl
      · exact absurd (List.any_eq_true.2 ⟨x, hx3, by simp [hid]⟩) hp
  · by_cases hp : prev.any (fun item => item.id == scan.id) = true
    · simp only [applyScanUpdate, hm, hp] at hx
      simp at hx
      exact absurd hid hx.2
    · simp only [applyScanUpdate, hm, hp] at hx
      simp at hx
      exact absurd (List.any_eq_true.2 ⟨x, hx, by simp [hid]⟩) hp

/-- One reconciliation step keeps the list-view store descending by
instant and within the page-size limit. -/
theorem applyScanUpdate_inv (tz : Int) (f : ScanFilters) (limit : Nat)
    (scan : Scan) {prev : List Scan} (h : ListStoreInv limit prev) :
    ListStoreInv limit (applyScanUpdate tz f limit scan prev) := by
  obtain ⟨hsort, hlen⟩ := h
  by_cases hm : matchesFilters tz f scan = true
  · by_cases hp : prev.any (fun item => item.id == scan.id) = true
    · have heq : applyScanUpdate tz f limit scan prev
          = sortByDateTimeDesc (replaceFirst scan prev) := by
        simp [applyScanUpdate, hm, hp]
      rw [heq]
      refine ⟨pairwise_sortByDateTimeDesc _, ?_⟩
      rw [(sortByDateTimeDesc_perm _).length_eq, length_replaceFirst]
      exact hlen
    · have heq : applyScanUpdate tz f limit scan prev
          = (sortByDateTimeDesc (scan :: prev)).take limit := by
        simp [applyScanUpdate, hm, hp]
      rw [heq]
      exact ⟨(pairwise_sortByDateTimeDesc _).sublist (List.take_sublist _ _),
             List.length_take_le _ _⟩
  · by_cases hp : prev.any (fun item => item.id == scan.id) = true
    · have heq : applyScanUpdate tz f limit scan prev
          = prev.filter (fun item => item.id != scan.id) := by
        simp [applyScanUpdate, hm, hp]
      rw [heq]
      exact ⟨hsort.sublist (List.filter_sublist _),
             le_trans (List.length_filter_le _ _) hlen⟩
    · have heq : applyScanUpdate tz f limit scan prev = prev := by
        simp [applyScanUpdate, hm, hp]
      rw [heq]
      exact ⟨hsort, hlen⟩

/-- Every push-event shape reduces to one applyScanUpdate step, so the
store invariant survives every event. -/
theorem handleListEvent_inv (tz : Int) (f : ScanFilters) (limit : Nat)
    (e : PushEvent) {prev : List Scan} (h : ListStoreInv limit prev) :
    ListStoreInv limit (handleListEvent tz f limit e prev) := by
  cases e <;> exact applyScanUpdate_inv tz f limit _ h

/-- C3 as stated is false on the code: two created events carrying
distinct appointments with the same instant leave the store holding both,
which is descending but not strictly descending by instant. -/
theorem list_store_strict_counterexample :
    ¬ List.Pairwise (fun a b => b.dateTime < a.dateTime)
      (applyListEvents 0 emptyFilters 10
        [.created (sampleScan 1 100), .created (sampleScan 2 100)] []) := by
  decide

/-- C3 amended: after any sequence of reconciled push events applied to a
list-view store that is descending by instant and within the page-size
limit (the empty initial store in particular), the store remains
descending by instant - strictly so only when instants are pairwise
distinct - and its length never exceeds the limit. -/
theorem list_store_desc_and_bounded (tz : Int) (f : ScanFilters)
    (limit : Nat) (events : List PushEvent) (init : List Scan)
    (h : ListStoreInv limit init) :
    ListStoreInv limit (applyListEvents tz f limit events init) := by
  induction events generalizing init with
  | nil => exact h
  | cons e es ih => exact ih _ (handleListEvent_inv tz f limit e h)

/-- C3 amended, instantiated at the equal-instant event pair from the
empty store. -/
theorem list_store_desc_and_bounded_witness :
    ListStoreInv 10 (applyListEvents 0 emptyFilters 10
      [.created (sampleScan 1 100), .created (sampleScan 2 100)] []) :=
  list_store_desc_and_bounded 0 emptyFilters 10
    [.created (sampleScan 1 100), .created (sampleScan 2 100)] []
    ⟨List.Pairwise.nil, by decide⟩

/-- C4: reconciling an unassigned event - whether the generic envelope
with action unassigned or the scans.unassigned channel - stores the
appointment with assignedTo forced to null and every other field taken
from the payload: any entry of the resulting store carrying the payload id
is exactly the null-assignee copy of the payload, whatever the payload
said its assignee was. -/
theorem unassigned_event_forces_null (tz : Int) (f : ScanFilters)
    (limit : Nat) (scan : Scan) (prev : List Scan)
    (hnodup : (prev.map Scan.id).Nodup) :
    (∀ x ∈ handleListEvent tz f limit (.envelope "unassigned" scan) prev,
        x.id = scan.id → x = { scan with assignedTo := none }) ∧
    (∀ x ∈ handleListEvent tz f limit (.unassigned scan) prev,
        x.id = scan.id → x = { scan with assignedTo := none }) := by
  have hn : normalizeScan "unassigned" scan = { scan with assignedTo := none } := by
    simp [normalizeScan]
  constructor
  · intro x hx hid
    rw [show handleListEvent tz f limit (.envelope "unassigned" scan) prev
          = applyScanUpdate tz f limit (normalizeScan "unassigned" scan) prev from rfl,
        hn] at hx
    exact applyScanUpdate_mem_id hnodup hx hid
  · intro x hx hid
    exact applyScanUpdate_mem_id hnodup hx hid

/-- C4 instantiated: the envelope event on the scan assigned to user 7,
reconciled into the empty store, yields exactly the literal unassigned
copy. -/
theorem unassigned_event_forces_null_witness :
    sampleUnassignedScan = { sampleAssignedScan with assignedTo := none } :=
  (unassigned_event_forces_null 0 emptyFilters 10 sampleAssignedScan []
      (by decide)).1
    sampleUnassignedScan (by decide) (by decide)

/-- C7: an inbound appointment that fails the active membership predicate
is a no-op when absent from the store and removes exactly its own entry
when present, in both the list view (filter predicate) and the agenda
view (selected-date predicate). -/
theorem nonmatching_event_noop_or_remove (tz : Int) (f : ScanFilters)
    (limit : Nat) (scan : Scan) (prev : List Scan) (sel : String) :
    (matchesFilters tz f scan = false →
      ((∀ x ∈ prev, x.id ≠ scan.id) → applyScanUpdate tz f limit scan prev = prev) ∧
      (scan.id ∈ prev.map Scan.id →
        applyScanUpdate tz f limit scan prev
          = prev.filter (fun item => item.id != scan.id))) ∧
    ((toLocalDateTimeParts tz scan.dateTime).1 ≠ sel →
      ((∀ x ∈ prev, x.id ≠ scan.id) → applyScanUpdateAgenda tz sel scan prev = prev) ∧
      (scan.id ∈ prev.map Scan.id →
        applyScanUpdateAgenda tz sel scan prev
          = prev.filter (fun item => item.id != scan.id))) := by
  constructor
  · intro hm
    constructor
    · intro habs
      have hp : prev.any (fun item => item.id == scan.id) = false := by
        simp only [List.any_eq_false]
        intro item hitem
        simpa using (habs item hitem).symm ∘ Eq.symm
      simp [applyScanUpdate, hm, hp]
    · intro hpres
      obtain ⟨y, hy, hyid⟩ := List.mem_map.1 hpres
      have hp : prev.any (fun item => item.id == scan.id) = true :=
        List.any_eq_true.2 ⟨y, hy, by simp [hyid]⟩
      simp [applyScanUpdate, hm, hp]
  · intro hsel
    have hmb : ((toLocalDateTimeParts tz scan.dateTime).1 == sel) = false := by
      simpa using hsel
    constructor
    · intro habs
      have hp : prev.any (fun item => item.id == scan.id) = false := by
        simp only [List.any_eq_false]
        intro item hitem
        simpa using (habs item hitem).symm ∘ Eq.symm
      simp [applyScanUpdateAgenda, hmb, hp]
    · intro hpres
      obtain ⟨y, hy, hyid⟩ := List.mem_map.1 hpres
      have hp : prev.any (fun item => item.id == scan.id) = true :=
        List.any_eq_true.2 ⟨y, hy, by simp [hyid]⟩
      simp [applyScanUpdateAgenda, hmb, hp]

/-- C7 instantiated: an unconfirmed scan against a confirmed-only filter,
with a store that does not contain it. -/
theorem nonmatching_event_noop_or_remove_witness :
    applyScanUpdate 0
      { emptyFilters with statusFilter := "confirmed" } 10
      (sampleScan 1 100) [sampleScan 2 200] = [sampleScan 2 200] :=
  ((nonmatching_event_noop_or_remove 0
      { emptyFilters with statusFilter := "confirmed" } 10
      (sampleScan 1 100) [sampleScan 2 200] "x").1 (by decide)).1 (by decide)

/-! ## Lemmas about the agenda day grid -/

/-- Grouping preserves any per-entry property that the inserted scan
enjoys under its key. -/
theorem addToSlotMap_forall (Q : Scan → String → Prop) (k : String) (s : Scan)
    (hs : Q s k) :
    ∀ (m : List (String × List Scan)), (∀ kv ∈ m, ∀ x ∈ kv.2, Q x kv.1) →
      ∀ kv ∈ addToSlotMap m k s, ∀ x ∈ kv.2, Q x kv.1 := by
  intro m
  induction m with
  | nil =>
    intro _ kv hkv x hx
    rw [show addToSlotMap [] k s = [(k, [s])] from rfl] at hkv
    rcases List.mem_singleton.1 hkv with rfl
    rcases List.mem_singleton.1 hx with rfl
    exact hs
  | cons p rest ih =>
    obtain ⟨k', g⟩ := p
    intro hm kv hkv x hx
    unfold addToSlotMap at hkv
    by_cases hk : k' = k
    · rw [if_pos hk] at hkv
      rcases List.mem_cons.1 hkv with rfl | hkv
      · rcases List.mem_append.1 hx with hx | hx
        · exact hm (k', g) (List.mem_cons_self _ _) x hx
        · rcases List.mem_singleton.1 hx with rfl
          rw [show (k', g ++ [x]).1 = k' from rfl, hk]
          exact hs
      · exact hm kv (List.mem_cons_of_mem _ hkv) x hx
    · rw [if_neg hk] at hkv
      rcases List.mem_cons.1 hkv with rfl | hkv
      · exact hm (k', g) (List.mem_cons_self _ _) x hx
      · exact ih (fun kv h => hm kv (List.mem_cons_of_mem _ h)) kv hkv x hx

/-- Grouping never loses a previously grouped scan. -/
theorem addToSlotMap_mono (k : String) (s : Scan) (k' : String) (x : Scan) :
    ∀ (m : List (String × List Scan)), (∃ kv ∈ m, kv.1 = k' ∧ x ∈ kv.2) →
      ∃ kv ∈ addToSlotMap m k s, kv.1 = k' ∧ x ∈ kv.2 := by
  intro m
  induction m with
  | nil =>
    rintro ⟨kv, hkv, _⟩
    simp at hkv
  | cons p rest ih =>
    obtain ⟨k0, g⟩ := p
    rintro ⟨kv, hkv, hk1, hk2⟩
    unfold addToSlotMap
    by_cases hk : k0 = k
    · rw [if_pos hk]
      rcases List.mem_cons.1 hkv with rfl | hkv
      · exact ⟨(k0, g ++ [s]), List.mem_cons_self _ _, hk1,
               List.mem_append.2 (Or.inl hk2)⟩
      · exact ⟨kv, List.mem_cons_of_mem _ hkv, hk1, hk2⟩
    · rw [if_neg hk]
      rcases List.mem_cons.1 hkv with rfl | hkv
      · exact ⟨(k0, g), List.mem_cons_self _ _, hk1, hk2⟩
      · obtain ⟨kv', h1, h2, h3⟩ := ih ⟨kv, hkv, hk1, hk2⟩
        exact ⟨kv', List.mem_cons_of_mem _ h1, h2, h3⟩

/-- The scan just grouped is present under its key. -/
theorem addToSlotMap_self (k : String) (s : Scan) :
    ∀ (m : List (String × List Scan)),
      ∃ kv ∈ addToSlotMap m k s, kv.1 = k ∧ s ∈ kv.2 := by
  intro m
  induction m with
  | nil =>
    exact ⟨(k, [s]), List.mem_singleton.2 rfl, rfl, List.mem_singleton.2 rfl⟩
  | cons p rest ih =>
    obtain ⟨k0, g⟩ := p
    unfold addToSlotMap
    by_cases hk : k0 = k
    · rw [if_pos hk]
      exact ⟨(k0, g ++ [s]), List.mem_cons_self _ _, hk,
             List.mem_append.2 (Or.inr (List.mem_singleton.2 rfl))⟩
    · rw [if_neg hk]
      obtain ⟨kv, h1, h2, h3⟩ := ih
      exact ⟨kv, List.mem_cons_of_mem _ h1, h2, h3⟩

/-- Folding the grid over any suffix preserves a per-entry property that
every folded scan enjoys under its local start time. -/
theorem slotsFold_forall (tz : Int) (sel : String) (Q : Scan → String → Prop) :
    ∀ (l : List Scan) (m : List (String × List Scan)),
      (∀ kv ∈ m, ∀ x ∈ kv.2, Q x kv.1) →
      (∀ s ∈ l, s.status ≠ some ScanStatus.cancelled →
        (toLocalDateTimeParts tz s.dateTime).1 = sel →
        Q s (toLocalDateTimeParts tz s.dateTime).2) →
      ∀ kv ∈ l.foldl (slotFoldStep tz sel) m, ∀ x ∈ kv.2, Q x kv.1 := by
  intro l
  induction l with
  | nil => intro m hm _ kv hkv; exact hm kv hkv
  | cons s l' ih =>
    intro m hm hl
    rw [List.foldl_cons]
    refine ih (slotFoldStep tz sel m s) ?_
      (fun x hx => hl x (List.mem_cons_of_mem _ hx))
    unfold slotFoldStep
    by_cases hc : s.status = some ScanStatus.cancelled
    · rw [if_pos hc]; exact hm
    · rw [if_neg hc]
      by_cases hd : (toLocalDateTimeParts tz s.dateTime).1 ≠ sel
      · rw [if_pos hd]; exact hm
      · rw [if_neg hd]
        exact addToSlotMap_forall Q _ s
          (hl s (List.mem_cons_self _ _) hc (not_not.1 hd)) m hm

/-- Folding the grid never loses a previously grouped scan. -/
theorem slotsFold_mono (tz : Int) (sel : String) (k : String) (x : Scan) :
    ∀ (l : List Scan) (m : List (String × List Scan)),
      (∃ kv ∈ m, kv.1 = k ∧ x ∈ kv.2) →
      ∃ kv ∈ l.foldl (slotFoldStep tz sel) m, kv.1 = k ∧ x ∈ kv.2 := by
  intro l
  induction l with
  | nil => intro m hm; exact hm
  | cons s l' ih =>
    intro m hm
    rw [List.foldl_cons]
    refine ih (slotFoldStep tz sel m s) ?_
    unfold slotFoldStep
    by_cases hc : s.status = some ScanStatus.cancelled
    · rw [if_pos hc]; exact hm
    · rw [if_neg hc]
      by_cases hd : (toLocalDateTimeParts tz s.dateTime).1 ≠ sel
      · rw [if_pos hd]; exact hm
      · rw [if_neg hd]; exact addToSlotMap_mono _ s k x m hm

/-- A qualifying scan of the folded list ends up grouped under its local
start time. -/
theorem slotsFold_mem (tz : Int) (sel : String) (x : Scan) :
    ∀ (l : List Scan) (m : List (String × List Scan)), x ∈ l →
      x.status ≠ some ScanStatus.cancelled →
      (toLocalDateTimeParts tz x.dateTime).1 = sel →
      ∃ kv ∈ l.foldl (slotFoldStep tz sel) m,
        kv.1 = (toLocalDateTimeParts tz x.dateTime).2 ∧ x ∈ kv.2 := by
  intro l
  induction l with
  | nil => intro m hx; simp at hx
  | cons s l' ih =>
    intro m hx hc hd
    rw [List.foldl_cons]
    rcases List.mem_cons.1 hx with rfl | hx
    · refine slotsFold_mono tz sel _ x l' (slotFoldStep tz sel m x) ?_
      unfold slotFoldStep
      rw [if_neg hc, if_neg (not_not.2 hd)]
      exact addToSlotMap_self _ x m
    · exact ih (slotFoldStep tz sel m s) hx hc hd

/-- C10: the agenda day grid contains exactly the non-cancelled scans of
the selected local date, each grouped under its local HH:MM start time;
in particular a cancelled scan never appears in any slot row, and every
grouped entry comes from the store. -/
theorem agenda_grid_groups_exactly (tz : Int) (sel : String)
    (scans : List Scan) :
    (∀ kv ∈ slotsByTime tz sel scans, ∀ x ∈ kv.2,
        x ∈ scans ∧ x.status ≠ some ScanStatus.cancelled ∧
        (toLocalDateTimeParts tz x.dateTime).1 = sel ∧
        (toLocalDateTimeParts tz x.dateTime).2 = kv.1) ∧
    (∀ s ∈ scans, s.status ≠ some ScanStatus.cancelled →
      (toLocalDateTimeParts tz s.dateTime).1 = sel →
      ∃ kv ∈ slotsByTime tz sel scans,
        kv.1 = (toLocalDateTimeParts tz s.dateTime).2 ∧ s ∈ kv.2) := by
  constructor
  · exact slotsFold_forall tz sel
      (fun x k => x ∈ scans ∧ x.status ≠ some ScanStatus.cancelled ∧
        (toLocalDateTimeParts tz x.dateTime).1 = sel ∧
        (toLocalDateTimeParts tz x.dateTime).2 = k)
      scans [] (by simp)
      (fun s hs h1 h2 => ⟨hs, h1, h2, rfl⟩)
  · intro s hs h1 h2
    exact slotsFold_mem tz sel s scans [] hs h1 h2

/-- C10 instantiated: the 08:00 UTC confirmed scan of 1970-01-01 sits in
the 08:00 row of that day and qualifies. -/
theorem agenda_grid_groups_exactly_witness :
    sampleSlotScan ∈ [sampleSlotScan] ∧
    sampleSlotScan.status ≠ some ScanStatus.cancelled ∧
    (toLocalDateTimeParts 0 sampleSlotScan.dateTime).1 = "1970-01-01" ∧
    (toLocalDateTimeParts 0 sampleSlotScan.dateTime).2 = "08:00" :=
  (agenda_grid_groups_exactly 0 "1970-01-01" [sampleSlotScan]).1
    ("08:00", [sampleSlotScan]) (by decide) sampleSlotScan (by decide)

end SalvaLab
